import Mathlib

/-!
Verification of the NER analysis script (`ner_project.py`).

The script delegates entity detection to an external model (spaCy); here the
model is an abstract `Extractor`: `extract` returns the (span text, label)
pairs of `nlp(text).ents`, and `explain` models `spacy.explain` (a label to
human-readable-description lookup that may return nothing).

All list/record manipulations of the script are embedded directly:
`extract_entities`, `analyze_texts`, `create_analysis_report`, `save_results`
and `main` keep their source names.  pandas `value_counts` (keys in first-seen
order, stably sorted by descending count) and `nunique` are embedded as list
functions.  File writes are modelled by an abstract file system `FS` saying
which of the two writes would succeed, with `Except` modelling a raised
exception.
-/

/-- The external entity-extraction capability: `extract` models
`[(ent.text, ent.label_) for ent in nlp(text).ents]`, `explain`
models `spacy.explain`. -/
structure Extractor where
  extract : String → List (String × String)
  explain : String → Option String

/-- One element of the list returned by `extract_entities`:
the dict `{'text': ..., 'label': ..., 'description': ...}`. -/
structure EntityInfo where
  text : String
  label : String
  description : Option String
deriving DecidableEq, Repr

/-- Embeds `extract_entities(nlp, text)`: for each detected entity, record its
surface text, label, and `spacy.explain(label)`. -/
def extract_entities (ex : Extractor) (text : String) : List EntityInfo :=
  (ex.extract text).map fun e =>
    { text := e.1, label := e.2, description := ex.explain e.2 }

/-- One row appended to `all_results` in `analyze_texts`. -/
structure EntityRecord where
  text_id : Nat
  original_text : String
  entity_text : String
  entity_type : String
  description : Option String
deriving DecidableEq, Repr

/-- The loop body of `analyze_texts`: `i` is the 0-based `enumerate` index of
the next text; each entity of a text becomes a record with `text_id = i+1`. -/
def analyzeGo (ex : Extractor) : Nat → List String → List EntityRecord
  | _, [] => []
  | i, t :: rest =>
    ((extract_entities ex t).map fun e =>
      { text_id := i + 1, original_text := t, entity_text := e.text,
        entity_type := e.label, description := e.description }) ++
      analyzeGo ex (i + 1) rest

/-- Embeds `analyze_texts(nlp, texts)`: flatten the per-text entity lists into
one record list, with 1-based `text_id`. -/
def analyze_texts (ex : Extractor) (texts : List String) : List EntityRecord :=
  analyzeGo ex 0 texts

/-- Distinct values of a list in first-seen order (the key order pandas
hash-based grouping produces before sorting). -/
def firstSeen {α : Type} [DecidableEq α] (l : List α) : List α :=
  l.foldl (fun acc k => if k ∈ acc then acc else acc ++ [k]) []

/-- pandas `Series.nunique`: the number of distinct values. -/
def nunique {α : Type} [DecidableEq α] (l : List α) : Nat :=
  (firstSeen l).length

/-- Insert a (key, count) pair into a list sorted by descending count,
before any pair of equal count (so that a stable descending sort results
from folding from the right). -/
def insertDesc {α : Type} (p : α × Nat) : List (α × Nat) → List (α × Nat)
  | [] => [p]
  | q :: rest => if q.2 ≤ p.2 then p :: q :: rest else q :: insertDesc p rest

/-- Stable sort of (key, count) pairs by descending count. -/
def sortCountsDesc {α : Type} (l : List (α × Nat)) : List (α × Nat) :=
  l.foldr insertDesc []

/-- pandas `Series.value_counts()`: occurrence count per distinct value,
sorted by descending count (ties in first-seen order). -/
def value_counts {α : Type} [DecidableEq α] (l : List α) : List (α × Nat) :=
  sortCountsDesc ((firstSeen l).map fun k => (k, l.count k))

/-- The statistics computed (and printed) by `create_analysis_report`. -/
structure SummaryStatistics where
  total_texts : Nat
  total_entities : Nat
  unique_entities : Nat
  unique_types : Nat
  avg_entities_per_text : ℚ
  entity_counts : List (String × Nat)
  common_entities : List (String × Nat)
deriving DecidableEq, Repr

/-- The percentage `(count / total_entities) * 100` computed for each
entity type, in exact rational arithmetic. -/
def type_percentage (total count : Nat) : ℚ :=
  (count : ℚ) / (total : ℚ) * 100

/-- Embeds `create_analysis_report(results)`: `None` on an empty result list,
otherwise the descriptive statistics.  `common_entities` is
`df['entity_text'].value_counts().head(10)`. -/
def create_analysis_report (results : List EntityRecord) :
    Option SummaryStatistics :=
  if results.isEmpty then none
  else some
    { total_texts := nunique (results.map fun r => r.text_id)
      total_entities := results.length
      unique_entities := nunique (results.map fun r => r.entity_text)
      unique_types := nunique (results.map fun r => r.entity_type)
      avg_entities_per_text :=
        (results.length : ℚ) / (nunique (results.map fun r => r.text_id) : ℚ)
      entity_counts := value_counts (results.map fun r => r.entity_type)
      common_entities :=
        (value_counts (results.map fun r => r.entity_text)).take 10 }

/-- The "Most Common Entities" console section: `common_entities.head(5)`. -/
def common_display (stats : SummaryStatistics) : List (String × Nat) :=
  stats.common_entities.take 5

/-- The per-type breakdown recomputed inside `save_results`:
`df['entity_type'].value_counts()`. -/
def report_breakdown (df : List EntityRecord) : List (String × Nat) :=
  value_counts (df.map fun r => r.entity_type)

/-- The breakdown lines appended to the text summary report, one per
entity type, in the order of `report_breakdown`. -/
def summary_report_lines (df : List EntityRecord) : List String :=
  (report_breakdown df).map fun p =>
    "- " ++ p.1 ++ ": " ++ toString p.2 ++ " entities"

/-- The rows of `ner_results.csv`: header then one row per record in
`df.to_csv` column order. -/
def csv_rows (df : List EntityRecord) : List (List String) :=
  ["text_id", "original_text", "entity_text", "entity_type", "description"] ::
    df.map fun r =>
      [toString r.text_id, r.original_text, r.entity_text, r.entity_type,
        r.description.getD ""]

/-- Abstract file system: which of the two file writes would succeed. -/
structure FS where
  csvOk : Bool
  txtOk : Bool
deriving DecidableEq, Repr

/-- Embeds `df.to_csv('ner_results.csv')`: raises (models an OSError) iff the
file system refuses the write. -/
def write_csv (fs : FS) (rows : List (List String)) : Except String Unit :=
  if fs.csvOk then Except.ok () else Except.error "could not write ner_results.csv"

/-- Writing `ner_summary_report.txt`: raises iff the file system refuses. -/
def write_txt (fs : FS) (lines : List String) : Except String Unit :=
  if fs.txtOk then Except.ok () else Except.error "could not write ner_summary_report.txt"

/-- What `save_results` left behind: which files were written, and the
warning printed by the `except` clause, if any. -/
structure SaveState where
  csv_written : Bool
  txt_written : Bool
  warning : Option String
deriving DecidableEq, Repr

/-- Embeds `save_results(df)`: write the CSV, then the text summary, inside one
`try`.  A raise jumps to the `except` clause, which records a warning;
the clause itself cannot raise, so the overall result is always
`Except.ok`; an `Except.error` result would model an uncaught exception
propagating to the caller. -/
def save_results (fs : FS) (df : List EntityRecord) : Except String SaveState :=
  match write_csv fs (csv_rows df) with
  | Except.error e =>
    Except.ok { csv_written := false, txt_written := false, warning := some e }
  | Except.ok _ =>
    match write_txt fs (summary_report_lines df) with
    | Except.error e =>
      Except.ok { csv_written := true, txt_written := false, warning := some e }
    | Except.ok _ =>
      Except.ok { csv_written := true, txt_written := true, warning := none }

/-- What one run of `main` produced: the statistics it reported (if any)
and the state `save_results` left (if it was called). -/
structure RunResult where
  reported : Option SummaryStatistics
  saved : Option SaveState
deriving Repr

/-- The data-relevant control flow of `main`: analyze, and only when the
result list is non-empty, report and (when the report is not `None`) save. -/
def main_run (ex : Extractor) (fs : FS) (texts : List String) : RunResult :=
  let results := analyze_texts ex texts
  if results.isEmpty then { reported := none, saved := none }
  else
    match create_analysis_report results with
    | none => { reported := none, saved := none }
    | some stats =>
      match save_results fs results with
      | Except.ok s => { reported := some stats, saved := some s }
      | Except.error _ => { reported := some stats, saved := none }

/-- The first sample sentence of `get_sample_texts`. -/
def obamaText : String :=
  "Barack Obama was the 44th President of the United States and was born in Hawaii."

/-- The stub extractor of the spec's scenario: on the sample sentence it
returns the four (span, label) pairs; on any other text nothing.
`explain` returns spaCy's descriptions for the three labels involved. -/
def stubExtractor : Extractor where
  extract := fun t =>
    if t = obamaText then
      [("Barack Obama", "PERSON"), ("44th", "ORDINAL"),
        ("the United States", "GPE"), ("Hawaii", "GPE")]
    else []
  explain := fun label =>
    if label = "PERSON" then some "People, including fictional"
    else if label = "ORDINAL" then some "first, second, etc."
    else if label = "GPE" then some "Countries, cities, states"
    else none

/-- A concrete one-record result list, used to instantiate the universally
quantified reporting theorems at a specific input. -/
def sampleRecord : EntityRecord :=
  { text_id := 1, original_text := obamaText, entity_text := "Hawaii",
    entity_type := "GPE", description := some "Countries, cities, states" }

/-! ### Lemmas about `firstSeen` and `value_counts` -/

theorem mem_firstSeen_foldl {α : Type} [DecidableEq α] (l : List α) :
    ∀ (acc : List α) (x : α),
      (x ∈ l.foldl (fun acc k => if k ∈ acc then acc else acc ++ [k]) acc) ↔
        x ∈ acc ∨ x ∈ l := by
  induction l with
  | nil => simp
  | cons a l ih =>
    intro acc x
    simp only [List.foldl_cons]
    by_cases h : a ∈ acc
    · rw [if_pos h, ih]
      simp only [List.mem_cons]
      constructor
      · rintro (hx | hx)
        · exact Or.inl hx
        · exact Or.inr (Or.inr hx)
      · rintro (hx | rfl | hx)
        · exact Or.inl hx
        · exact Or.inl h
        · exact Or.inr hx
    · rw [if_neg h, ih]
      simp only [List.mem_append, List.mem_cons, List.mem_singleton]
      tauto

theorem nodup_firstSeen_foldl {α : Type} [DecidableEq α] (l : List α) :
    ∀ acc : List α, acc.Nodup →
      (l.foldl (fun acc k => if k ∈ acc then acc else acc ++ [k]) acc).Nodup := by
  induction l with
  | nil => intro acc h; simpa using h
  | cons a l ih =>
    intro acc h
    simp only [List.foldl_cons]
    by_cases ha : a ∈ acc
    · rw [if_pos ha]; exact ih acc h
    · rw [if_neg ha]
      refine ih _ ?_
      rw [List.nodup_append]
      exact ⟨h, List.nodup_singleton a, by simpa [List.disjoint_singleton] using ha⟩

theorem mem_firstSeen {α : Type} [DecidableEq α] {l : List α} {x : α} :
    x ∈ firstSeen l ↔ x ∈ l := by
  unfold firstSeen
  rw [mem_firstSeen_foldl]
  simp

theorem nodup_firstSeen {α : Type} [DecidableEq α] (l : List α) :
    (firstSeen l).Nodup :=
  nodup_firstSeen_foldl l [] List.nodup_nil

theorem firstSeen_perm_dedup {α : Type} [DecidableEq α] (l : List α) :
    (firstSeen l).Perm l.dedup :=
  (List.perm_ext_iff_of_nodup (nodup_firstSeen l) (List.nodup_dedup l)).mpr
    (fun a => by rw [mem_firstSeen, List.mem_dedup])

theorem sum_counts_firstSeen {α : Type} [DecidableEq α] (l : List α) :
    ((firstSeen l).map fun k => l.count k).sum = l.length := by
  have h := ((firstSeen_perm_dedup l).map fun k => l.count k).sum_eq
  rw [h]
  exact List.sum_map_count_dedup_eq_length l

theorem insertDesc_perm {α : Type} (p : α × Nat) (l : List (α × Nat)) :
    (insertDesc p l).Perm (p :: l) := by
  induction l with
  | nil => simp [insertDesc]
  | cons q rest ih =>
    simp only [insertDesc]
    by_cases h : q.2 ≤ p.2
    · rw [if_pos h]
    · rw [if_neg h]
      exact (ih.cons q).trans (List.Perm.swap p q rest)

theorem sortCountsDesc_perm {α : Type} (l : List (α × Nat)) :
    (sortCountsDesc l).Perm l := by
  induction l with
  | nil => simp [sortCountsDesc]
  | cons q rest ih =>
    have hq : sortCountsDesc (q :: rest) = insertDesc q (sortCountsDesc rest) := rfl
    rw [hq]
    exact (insertDesc_perm q _).trans (ih.cons q)

theorem insertDesc_sorted {α : Type} (p : α × Nat) {l : List (α × Nat)}
    (h : l.Pairwise fun a b => b.2 ≤ a.2) :
    (insertDesc p l).Pairwise fun a b => b.2 ≤ a.2 := by
  induction l with
  | nil => simp [insertDesc]
  | cons q rest ih =>
    rcases List.pairwise_cons.mp h with ⟨hq, hrest⟩
    simp only [insertDesc]
    by_cases hle : q.2 ≤ p.2
    · rw [if_pos hle]
      refine List.Pairwise.cons ?_ h
      intro b hb
      rcases List.mem_cons.mp hb with rfl | hb
      · exact hle
      · exact le_trans (hq b hb) hle
    · rw [if_neg hle]
      refine List.Pairwise.cons ?_ (ih hrest)
      intro b hb
      have hmem := (insertDesc_perm p rest).mem_iff.mp hb
      rcases List.mem_cons.mp hmem with rfl | hb2
      · exact le_of_not_le hle
      · exact hq b hb2

theorem sortCountsDesc_sorted {α : Type} (l : List (α × Nat)) :
    (sortCountsDesc l).Pairwise fun a b => b.2 ≤ a.2 := by
  induction l with
  | nil => simp [sortCountsDesc]
  | cons q rest ih => exact insertDesc_sorted q ih

theorem value_counts_perm {α : Type} [DecidableEq α] (l : List α) :
    (value_counts l).Perm ((firstSeen l).map fun k => (k, l.count k)) :=
  sortCountsDesc_perm _

theorem value_counts_sorted {α : Type} [DecidableEq α] (l : List α) :
    (value_counts l).Pairwise fun a b => b.2 ≤ a.2 :=
  sortCountsDesc_sorted _

theorem mem_value_counts {α : Type} [DecidableEq α] {l : List α} {p : α × Nat}
    (hp : p ∈ value_counts l) : p.1 ∈ l ∧ p.2 = l.count p.1 := by
  have hmem := (value_counts_perm l).mem_iff.mp hp
  rcases List.mem_map.mp hmem with ⟨k, hk, hpk⟩
  cases hpk
  exact ⟨mem_firstSeen.mp hk, rfl⟩

theorem value_counts_keys {α : Type} [DecidableEq α] {l : List α} {t : α} :
    (∃ c, (t, c) ∈ value_counts l) ↔ t ∈ l := by
  constructor
  · rintro ⟨c, hc⟩
    exact (mem_value_counts hc).1
  · intro ht
    refine ⟨l.count t, ?_⟩
    exact (value_counts_perm l).mem_iff.mpr
      (List.mem_map.mpr ⟨t, mem_firstSeen.mpr ht, rfl⟩)

theorem value_counts_sum {α : Type} [DecidableEq α] (l : List α) :
    ((value_counts l).map fun p => p.2).sum = l.length := by
  have h := ((value_counts_perm l).map fun p : α × Nat => p.2).sum_eq
  rw [h, List.map_map]
  simpa [Function.comp] using sum_counts_firstSeen l

theorem sum_map_percentage {α : Type} (T : ℚ) (l : List (α × Nat)) :
    (l.map fun p => (p.2 : ℚ) / T * 100).sum =
      (((l.map fun p => p.2).sum : Nat) : ℚ) / T * 100 := by
  induction l with
  | nil => simp
  | cons c rest ih =>
    simp only [List.map_cons, List.sum_cons, ih]
    push_cast
    ring

/-! ### Lemmas about `analyzeGo` -/

theorem analyzeGo_length (ex : Extractor) (texts : List String) :
    ∀ i, (analyzeGo ex i texts).length =
      (texts.map fun t => (ex.extract t).length).sum := by
  induction texts with
  | nil => intro i; rfl
  | cons t rest ih =>
    intro i
    simp [analyzeGo, extract_entities, ih]

theorem mem_analyzeGo {ex : Extractor} {texts : List String} {r : EntityRecord} :
    ∀ {i}, r ∈ analyzeGo ex i texts →
      ∃ j, ∃ h : j < texts.length,
        r.text_id = i + j + 1 ∧ texts.get ⟨j, h⟩ = r.original_text ∧
        r.description = ex.explain r.entity_type := by
  induction texts with
  | nil => intro i h; simp [analyzeGo] at h
  | cons t rest ih =>
    intro i hr
    rcases List.mem_append.mp hr with hchunk | htail
    · rcases List.mem_map.mp hchunk with ⟨e, he, hre⟩
      rcases List.mem_map.mp he with ⟨pr, _hpr, hepr⟩
      subst hre
      subst hepr
      exact ⟨0, by simp, by simp, rfl, rfl⟩
    · rcases ih htail with ⟨j, hj, h1, h2, h3⟩
      refine ⟨j + 1, by simpa using hj, by omega, ?_, h3⟩
      simpa using h2

theorem analyzeGo_textid_lb {ex : Extractor} {texts : List String}
    {r : EntityRecord} {i : Nat} (hr : r ∈ analyzeGo ex i texts) :
    i + 1 ≤ r.text_id := by
  rcases mem_analyzeGo hr with ⟨j, _hj, h1, _⟩
  omega

theorem analyzeGo_textid_sorted (ex : Extractor) (texts : List String) :
    ∀ i, ((analyzeGo ex i texts).map fun r => r.text_id).Pairwise (· ≤ ·) := by
  induction texts with
  | nil => intro i; simp [analyzeGo]
  | cons t rest ih =>
    intro i
    simp only [analyzeGo, List.map_append]
    rw [List.pairwise_append]
    refine ⟨?_, ih (i + 1), ?_⟩
    · rw [List.map_map]
      have hcomp :
          ((fun r : EntityRecord => r.text_id) ∘ fun e : EntityInfo =>
            { text_id := i + 1, original_text := t, entity_text := e.text,
              entity_type := e.label, description := e.description }) =
          fun _ => i + 1 := rfl
      rw [hcomp, List.map_const']
      exact List.pairwise_replicate.mpr (Or.inr le_rfl)
    · intro a ha b hb
      rcases List.mem_map.mp ha with ⟨r1, hr1, hr1a⟩
      rcases List.mem_map.mp hb with ⟨r2, hr2, hr2b⟩
      rcases List.mem_map.mp hr1 with ⟨e, _he, hre⟩
      subst hr1a
      subst hr2b
      subst hre
      exact le_trans (Nat.le_succ (i + 1)) (analyzeGo_textid_lb hr2)

/-! ### Claim theorems -/

/-- C1: `analyze_texts` returns one record per entity the extractor returned,
in traversal order: its size is the sum over the texts of the number of
entities extracted from that text, its `text_id` values are non-decreasing,
and every record's `text_id` is the 1-based position of its source text in
the input sequence. -/
theorem analyze_texts_size_and_order (ex : Extractor) (texts : List String) :
    (analyze_texts ex texts).length =
      (texts.map fun t => (ex.extract t).length).sum ∧
    ((analyze_texts ex texts).map fun r => r.text_id).Pairwise (· ≤ ·) ∧
    ∀ r ∈ analyze_texts ex texts,
      ∃ j, ∃ h : j < texts.length,
        r.text_id = j + 1 ∧ texts.get ⟨j, h⟩ = r.original_text := by
  refine ⟨analyzeGo_length ex texts 0, analyzeGo_textid_sorted ex texts 0, ?_⟩
  intro r hr
  rcases mem_analyzeGo hr with ⟨j, hj, h1, h2, _h3⟩
  exact ⟨j, hj, by omega, h2⟩

/-- Witness for C1: the size/order property instantiated at the concrete
stub extractor and the single sample sentence. -/
theorem analyze_texts_size_and_order_witness :
    (analyze_texts stubExtractor [obamaText]).length =
      ([obamaText].map fun t => (stubExtractor.extract t).length).sum ∧
    ((analyze_texts stubExtractor [obamaText]).map fun r => r.text_id).Pairwise
      (· ≤ ·) ∧
    ∀ r ∈ analyze_texts stubExtractor [obamaText],
      ∃ j, ∃ h : j < ([obamaText] : List String).length,
        r.text_id = j + 1 ∧ [obamaText].get ⟨j, h⟩ = r.original_text :=
  analyze_texts_size_and_order stubExtractor [obamaText]

/-- C2: on an empty result list `create_analysis_report` signals "no data"
by returning `none`: no statistics object is built (in particular no
division by the zero text count happens). -/
theorem create_analysis_report_empty :
    create_analysis_report [] = none := rfl

/-- C5: `save_results` always returns normally (`Except.ok`, never
`Except.error`, i.e. no exception escapes the `try` block), and the recorded
warning is absent exactly when both writes succeeded: a failed write is
caught and logged as a warning, never propagated, and the in-memory record
list passed in is left untouched. -/
theorem save_results_never_raises (fs : FS) (df : List EntityRecord) :
    ∃ s : SaveState, save_results fs df = Except.ok s ∧
      (s.warning = none ↔ fs.csvOk = true ∧ fs.txtOk = true) := by
  cases fs with
  | mk c t => cases c <;> cases t <;> exact ⟨_, rfl, by simp [write_csv, write_txt]⟩

/-- C9: persistence is non-atomic: if the CSV write fails, nothing is
written and the summary write is never attempted; if the CSV write succeeds
and the summary write then fails, the CSV stays written; if both succeed,
both files are written and no warning is recorded. -/
theorem save_results_nonatomic (df : List EntityRecord) (b : Bool) :
    save_results { csvOk := false, txtOk := b } df =
      Except.ok ⟨false, false, some "could not write ner_results.csv"⟩ ∧
    save_results { csvOk := true, txtOk := false } df =
      Except.ok ⟨true, false, some "could not write ner_summary_report.txt"⟩ ∧
    save_results { csvOk := true, txtOk := true } df =
      Except.ok ⟨true, true, none⟩ :=
  ⟨rfl, rfl, rfl⟩

/-- C10: on the empty input sequence `analyze_texts` returns the empty
result list, and `main` then skips both reporting and saving: no statistics
are produced and `save_results` is never invoked, so no output files are
written. -/
theorem main_run_empty_input (ex : Extractor) (fs : FS) :
    analyze_texts ex [] = [] ∧
    main_run ex fs [] = { reported := none, saved := none } :=
  ⟨rfl, rfl⟩

/-- C8: every record produced by `analyze_texts` is consistent with its
source: `original_text` is the input text at its 1-based `text_id`, and
`description` is exactly the extractor's explanation of its own
`entity_type`; consequently two records with equal `entity_type` carry
equal descriptions. -/
theorem analyze_texts_record_consistency (ex : Extractor) (texts : List String) :
    (∀ r ∈ analyze_texts ex texts,
      (∃ j, ∃ h : j < texts.length,
        r.text_id = j + 1 ∧ texts.get ⟨j, h⟩ = r.original_text) ∧
      r.description = ex.explain r.entity_type) ∧
    ∀ r1 ∈ analyze_texts ex texts, ∀ r2 ∈ analyze_texts ex texts,
      r1.entity_type = r2.entity_type → r1.description = r2.description := by
  have key : ∀ r ∈ analyze_texts ex texts,
      (∃ j, ∃ h : j < texts.length,
        r.text_id = j + 1 ∧ texts.get ⟨j, h⟩ = r.original_text) ∧
      r.description = ex.explain r.entity_type := by
    intro r hr
    rcases mem_analyzeGo hr with ⟨j, hj, h1, h2, h3⟩
    exact ⟨⟨j, hj, by omega, h2⟩, h3⟩
  refine ⟨key, ?_⟩
  intro r1 h1 r2 h2 hty
  rw [(key r1 h1).2, (key r2 h2).2, hty]

/-- Witness for C8: the record-consistency invariant instantiated at the
concrete stub extractor and the single sample sentence. -/
theorem analyze_texts_record_consistency_witness :
    (∀ r ∈ analyze_texts stubExtractor [obamaText],
      (∃ j, ∃ h : j < ([obamaText] : List String).length,
        r.text_id = j + 1 ∧ [obamaText].get ⟨j, h⟩ = r.original_text) ∧
      r.description = stubExtractor.explain r.entity_type) ∧
    ∀ r1 ∈ analyze_texts stubExtractor [obamaText],
      ∀ r2 ∈ analyze_texts stubExtractor [obamaText],
        r1.entity_type = r2.entity_type → r1.description = r2.description :=
  analyze_texts_record_consistency stubExtractor [obamaText]

/-- On a non-empty result list, `create_analysis_report` takes the `else`
branch; its value written out. -/
theorem create_analysis_report_of_ne {results : List EntityRecord}
    (h : results ≠ []) :
    create_analysis_report results = some
      { total_texts := nunique (results.map fun r => r.text_id)
        total_entities := results.length
        unique_entities := nunique (results.map fun r => r.entity_text)
        unique_types := nunique (results.map fun r => r.entity_type)
        avg_entities_per_text :=
          (results.length : ℚ) / (nunique (results.map fun r => r.text_id) : ℚ)
        entity_counts := value_counts (results.map fun r => r.entity_type)
        common_entities :=
          (value_counts (results.map fun r => r.entity_text)).take 10 } := by
  cases results with
  | nil => exact absurd rfl h
  | cons a l => rfl

/-- C4: the spec's stub scenario: the single sample sentence with the
four-entity stub extractor yields exactly 4 records, all with
`text_id = 1`, and the report shows 4 total entities, 3 unique types and
an average of 4 entities per text. -/
theorem stub_scenario_report :
    (analyze_texts stubExtractor [obamaText]).length = 4 ∧
    ((analyze_texts stubExtractor [obamaText]).all fun r => r.text_id == 1)
      = true ∧
    ∃ stats,
      create_analysis_report (analyze_texts stubExtractor [obamaText]) =
        some stats ∧
      stats.total_entities = 4 ∧ stats.unique_types = 3 ∧
      stats.avg_entities_per_text = 4 := by
  have hlen : (analyze_texts stubExtractor [obamaText]).length = 4 := by decide
  have hnun :
      nunique ((analyze_texts stubExtractor [obamaText]).map fun r => r.text_id)
        = 1 := by decide
  refine ⟨hlen, by decide, ?_⟩
  refine ⟨_, create_analysis_report_of_ne (by decide), by decide, by decide, ?_⟩
  show ((analyze_texts stubExtractor [obamaText]).length : ℚ) /
      (nunique ((analyze_texts stubExtractor [obamaText]).map fun r => r.text_id)
        : ℚ) = 4
  rw [hlen, hnun]
  norm_num

/-- C3: for every non-empty result list, the per-type percentages
(count divided by total, times 100, in exact rational arithmetic) over the
entity-type breakdown sum to exactly 100. -/
theorem type_percentages_sum_to_100 (results : List EntityRecord)
    (h : results ≠ []) :
    ∃ stats, create_analysis_report results = some stats ∧
      (stats.entity_counts.map fun p =>
        type_percentage stats.total_entities p.2).sum = 100 := by
  refine ⟨_, create_analysis_report_of_ne h, ?_⟩
  show ((value_counts (results.map fun r => r.entity_type)).map fun p =>
    type_percentage results.length p.2).sum = 100
  simp only [type_percentage]
  rw [sum_map_percentage, value_counts_sum, List.length_map]
  have hn : ((results.length : Nat) : ℚ) ≠ 0 := by
    have hlen : results.length ≠ 0 := by
      cases results
      · exact absurd rfl h
      · simp
    exact_mod_cast hlen
  rw [div_self hn, one_mul]

/-- Witness for C3 at a concrete one-record result list. -/
theorem type_percentages_sum_to_100_witness :
    [sampleRecord] ≠ [] ∧
    ∃ stats, create_analysis_report [sampleRecord] = some stats ∧
      (stats.entity_counts.map fun p =>
        type_percentage stats.total_entities p.2).sum = 100 :=
  ⟨by decide, type_percentages_sum_to_100 [sampleRecord] (by decide)⟩

/-- C6: the most-common-entities computation: `common_entities` is the top
10 of the per-`entity_text` occurrence counts — its counts are in
descending order, each listed count is the true multiplicity of its key,
and no key dropped after position 10 outranks a listed one — and the
human summary displays only the first 5 of those entries. -/
theorem common_entities_top10_display5 (results : List EntityRecord)
    (h : results ≠ []) :
    ∃ stats, create_analysis_report results = some stats ∧
      stats.common_entities =
        (value_counts (results.map fun r => r.entity_text)).take 10 ∧
      common_display stats = stats.common_entities.take 5 ∧
      stats.common_entities.Pairwise (fun p q => q.2 ≤ p.2) ∧
      (∀ p ∈ stats.common_entities,
        p.2 = (results.map fun r => r.entity_text).count p.1) ∧
      ∀ p ∈ stats.common_entities,
        ∀ q ∈ (value_counts (results.map fun r => r.entity_text)).drop 10,
          q.2 ≤ p.2 := by
  refine ⟨_, create_analysis_report_of_ne h, rfl, rfl, ?_, ?_, ?_⟩
  · exact List.Pairwise.sublist (List.take_sublist 10 _) (value_counts_sorted _)
  · intro p hp
    exact (mem_value_counts (List.take_subset 10 _ hp)).2
  · intro p hp q hq
    have hpw : ((value_counts (results.map fun r => r.entity_text)).take 10 ++
        (value_counts (results.map fun r => r.entity_text)).drop 10).Pairwise
        (fun a b => b.2 ≤ a.2) := by
      rw [List.take_append_drop]
      exact value_counts_sorted _
    exact (List.pairwise_append.mp hpw).2.2 p hp q hq

/-- Witness for C6 at a concrete one-record result list. -/
theorem common_entities_top10_display5_witness :
    [sampleRecord] ≠ [] ∧
    ∃ stats, create_analysis_report [sampleRecord] = some stats ∧
      stats.common_entities =
        (value_counts ([sampleRecord].map fun r => r.entity_text)).take 10 ∧
      common_display stats = stats.common_entities.take 5 ∧
      stats.common_entities.Pairwise (fun p q => q.2 ≤ p.2) ∧
      (∀ p ∈ stats.common_entities,
        p.2 = ([sampleRecord].map fun r => r.entity_text).count p.1) ∧
      ∀ p ∈ stats.common_entities,
        ∀ q ∈ (value_counts ([sampleRecord].map fun r => r.entity_text)).drop 10,
          q.2 ≤ p.2 :=
  ⟨by decide, common_entities_top10_display5 [sampleRecord] (by decide)⟩

/-- C7: the per-type breakdown lists the distinct entity types in
descending order of their occurrence counts (each listed count being the
true multiplicity, and exactly the occurring types listed), and the
breakdown written to the text report is the same list in the same order. -/
theorem entity_type_breakdown_order (results : List EntityRecord)
    (h : results ≠ []) :
    ∃ stats, create_analysis_report results = some stats ∧
      stats.entity_counts.Pairwise (fun p q => q.2 ≤ p.2) ∧
      (∀ p ∈ stats.entity_counts,
        p.2 = (results.map fun r => r.entity_type).count p.1) ∧
      (∀ t, (∃ c, (t, c) ∈ stats.entity_counts) ↔
        t ∈ results.map fun r => r.entity_type) ∧
      report_breakdown results = stats.entity_counts ∧
      summary_report_lines results = stats.entity_counts.map fun p =>
        "- " ++ p.1 ++ ": " ++ toString p.2 ++ " entities" := by
  refine ⟨_, create_analysis_report_of_ne h, value_counts_sorted _, ?_, ?_,
    rfl, rfl⟩
  · intro p hp
    exact (mem_value_counts hp).2
  · intro t
    exact value_counts_keys

/-- Witness for C7 at a concrete one-record result list. -/
theorem entity_type_breakdown_order_witness :
    [sampleRecord] ≠ [] ∧
    ∃ stats, create_analysis_report [sampleRecord] = some stats ∧
      stats.entity_counts.Pairwise (fun p q => q.2 ≤ p.2) ∧
      (∀ p ∈ stats.entity_counts,
        p.2 = ([sampleRecord].map fun r => r.entity_type).count p.1) ∧
      (∀ t, (∃ c, (t, c) ∈ stats.entity_counts) ↔
        t ∈ [sampleRecord].map fun r => r.entity_type) ∧
      report_breakdown [sampleRecord] = stats.entity_counts ∧
      summary_report_lines [sampleRecord] = stats.entity_counts.map fun p =>
        "- " ++ p.1 ++ ": " ++ toString p.2 ++ " entities" :=
  ⟨by decide, entity_type_breakdown_order [sampleRecord] (by decide)⟩
